import Mathlib

/-!
Verification of the docker discovery provider of reproxy
(app/discovery/provider/docker.go).

The provider is embedded shallowly: the external docker client is a
collaborator, so its answers (the enumeration result, the subscription
result, the stream of events) are explicit inputs of the embedded
operations.  The Go regexp engine is likewise external to this package;
compilation is an explicit parameter of type String to Except String Unit
returning the error message on failure.  Machine integers (the private
port, the creation timestamp) are modelled as Int.  A Go panic (indexing
Names[0] on an empty slice) is modelled by the outer Option layer of the
listing operations: none means the operation is undefined.
-/

namespace Reproxy

/-- Membership test used throughout docker.go (function contains). -/
def contains (e : String) : List String → Bool
  | [] => false
  | a :: rest => if a = e then true else contains e rest

/-- Go strings.TrimPrefix: drop the prefix when present, else return s unchanged.
Stated on the character lists so that it evaluates by kernel reduction. -/
def trimPrefixStr (s pre : String) : String :=
  if pre.data.isPrefixOf s.data then String.mk (s.data.drop pre.data.length) else s

/-- Lookup in a Go string map modelled as an association list. -/
def mapGet (m : List (String × String)) (k : String) : Option String :=
  (m.find? (fun kv => kv.1 = k)).map (fun kv => kv.2)

/-- Status vocabulary upStatuses of docker.go. -/
def upStatuses : List String := ["start", "restart"]

/-- Status vocabulary downStatuses of docker.go. -/
def downStatuses : List String := ["die", "destroy", "stop", "pause"]

/-- Per-network endpoint record of the docker client (only the field read by docker.go). -/
structure ContainerNetwork where
  IPAddress : String
deriving DecidableEq

/-- NetworkList of the docker client: the per-network address map, as an association list
from network name to endpoint. -/
structure NetworkList where
  Networks : List (String × ContainerNetwork)
deriving DecidableEq

/-- Port mapping record of the docker client (only the private port is read). -/
structure APIPort where
  PrivatePort : Int
deriving DecidableEq

/-- Container record returned by the docker client enumeration (fields read by docker.go). -/
structure APIContainers where
  ID : String
  Names : List String
  Status : String
  Created : Int
  Labels : List (String × String)
  Networks : NetworkList
  Ports : List APIPort
deriving DecidableEq

/-- Docker provider configuration (docker.go struct Docker, minus the client,
which is passed explicitly to each embedded operation). -/
structure Docker where
  Excludes : List String
  Network : String
deriving DecidableEq

/-- containerInfo of docker.go: the snapshot built per retained container. -/
structure containerInfo where
  ID : String
  Name : String
  TS : Int
  Labels : List (String × String)
  IP : String
  Port : Int
deriving DecidableEq

/-- Modelled from the spec: the RoutingRule record (discovery.UrlMapper) handed to the
consumer; the discovery package is not part of the given source.  SrcMatch holds the
source text of the compiled regular expression (in Go, the compiled value whose String
method returns exactly the text handed to Compile). -/
structure UrlMapper where
  Server : String
  SrcMatch : String
  Dst : String
deriving DecidableEq

/-- Per-container body of the loop inside Docker.listContainers: the status check, the
name de-prefixing and exclusion check, the network address search, and the exposed-port
selection, in source order.  Result none models the Go panic on Names[0] when Names is
empty; some none models discarding the container; some (some ci) retains it. -/
def processContainer (d : Docker) (c : APIContainers) : Option (Option containerInfo) :=
  if contains c.Status upStatuses = false then some none
  else
    match c.Names with
    | [] => none
    | n0 :: _ =>
      let containerName := trimPrefixStr n0 "/"
      if contains containerName d.Excludes then some none
      else
        let ip := (((c.Networks.Networks.find? (fun kv => kv.1 = d.Network)).map
          (fun kv => kv.2.IPAddress)).getD "")
        if ip = "" then some none
        else
          match c.Ports with
          | [] => some none
          | p :: _ =>
            some (some { ID := c.ID, Name := containerName, TS := Int.tdiv c.Created 1000,
                         Labels := c.Labels, IP := ip, Port := p.PrivatePort })

/-- The loop of Docker.listContainers over the enumerated containers, in order. -/
def listContainers (d : Docker) : List APIContainers → Option (List containerInfo)
  | [] => some []
  | c :: rest =>
    match processContainer d c with
    | none => none
    | some none => listContainers d rest
    | some (some ci) =>
      match listContainers d rest with
      | none => none
      | some cis => some (ci :: cis)

/-- Docker.listContainers including the wrapping of a client enumeration failure. -/
def listContainersOp (d : Docker) (clientRes : Except String (List APIContainers)) :
    Option (Except String (List containerInfo)) :=
  match clientRes with
  | Except.error e => some (Except.error ("can\x27t list containers: " ++ e))
  | Except.ok cs =>
    match listContainers d cs with
    | none => none
    | some cis => some (Except.ok cis)

/-- Effective source pattern of a snapshot: the default, overridden verbatim by the
dpx.route label when present (Docker.List loop body). -/
def srcURLOf (ci : containerInfo) : String :=
  match mapGet ci.Labels "dpx.route" with
  | some v => v
  | none => "^/api/" ++ ci.Name ++ "/(.*)"

/-- Effective destination of a snapshot: the default template with the capture
placeholder, or, when the dpx.dest label is present, the address with that label value
as path suffix and no placeholder (Docker.List loop body). -/
def destURLOf (ci : containerInfo) : String :=
  match mapGet ci.Labels "dpx.dest" with
  | some v => "http://" ++ ci.IP ++ ":" ++ toString ci.Port ++ v
  | none => "http://" ++ ci.IP ++ ":" ++ toString ci.Port ++ "/$1"

/-- Effective server match of a snapshot: star unless the dpx.server label overrides it. -/
def serverOf (ci : containerInfo) : String :=
  (mapGet ci.Labels "dpx.server").getD "*"

/-- One iteration of the rule-building loop of Docker.List: compile the effective source
pattern and build the UrlMapper, or fail with the wrapped compile error. -/
def ruleOf (compile : String → Except String Unit) (ci : containerInfo) :
    Except String UrlMapper :=
  match compile (srcURLOf ci) with
  | Except.error e => Except.error ("invalid src regex " ++ srcURLOf ci ++ ": " ++ e)
  | Except.ok _ => Except.ok { Server := serverOf ci, SrcMatch := srcURLOf ci,
                               Dst := destURLOf ci }

/-- The rule-building loop of Docker.List over the retained snapshots: the first compile
failure aborts the whole call with its wrapped error. -/
def mapRules (compile : String → Except String Unit) :
    List containerInfo → Except String (List UrlMapper)
  | [] => Except.ok []
  | ci :: rest =>
    match ruleOf compile ci with
    | Except.error e => Except.error e
    | Except.ok u =>
      match mapRules compile rest with
      | Except.error e => Except.error e
      | Except.ok us => Except.ok (u :: us)

/-- Docker.List: enumerate and filter containers, then derive one routing rule per
retained snapshot; any failure is returned to the caller, never a partial list. -/
def dockerList (d : Docker) (compile : String → Except String Unit)
    (clientRes : Except String (List APIContainers)) :
    Option (Except String (List UrlMapper)) :=
  match listContainersOp d clientRes with
  | none => none
  | some (Except.error e) => some (Except.error e)
  | some (Except.ok cis) => some (mapRules compile cis)

/-- Actor record of a docker API event (only the attribute map is read). -/
structure APIActor where
  Attributes : List (String × String)
deriving DecidableEq

/-- Docker API event as read by Docker.events: resource type, status string and actor.
The Go field named Type is rendered as etype, Type being reserved in Lean. -/
structure APIEvents where
  etype : String
  Status : String
  Actor : APIActor
deriving DecidableEq

/-- Error of a cancelled or expired context, as returned by ctx.Err for a done context. -/
inductive CtxErr where
  | canceled
  | deadlineExceeded
deriving DecidableEq

/-- Error values the inner loop Docker.events can return: the context error from the
ctx.Done branch, the wrapped subscription failure (errors.Wrap of the AddEventListener
error, never the context sentinel), or the fresh error built when the docker event
channel closes. -/
inductive EventsErr where
  | ctxErr (e : CtxErr)
  | listenFailed (msg : String)
  | eventsClosed
deriving DecidableEq

/-- The test the outer loop of Docker.Events applies to the returned error: identity
comparison with the context.Canceled and context.DeadlineExceeded sentinels, which only
the ctx.Err return path can produce. -/
def isCancellation : EventsErr → Bool
  | EventsErr.ctxErr _ => true
  | _ => false

/-- One arrival observed by the select statement of Docker.events: the context becoming
done, the docker event channel closing, or an event being received on it. -/
inductive EventStep where
  | ctxDone (e : CtxErr)
  | chClosed
  | chEvent (ev : APIEvents)
deriving DecidableEq

/-- The per-event body of Docker.events: keep only container-typed events whose status
is in the up or down vocabulary and whose de-prefixed actor name is not excluded; a kept
event sends exactly one empty signal on eventsCh. -/
def emitsSignal (d : Docker) (ev : APIEvents) : Bool :=
  if ev.etype ≠ "container" then false
  else if contains ev.Status upStatuses = false ∧ contains ev.Status downStatuses = false
    then false
  else
    let containerName := trimPrefixStr ((mapGet ev.Actor.Attributes "name").getD "") "/"
    if contains containerName d.Excludes then false
    else true

/-- The select loop of Docker.events over a finite observation of arrivals: the count of
signals sent before the loop returns, and the returned error.  A none error means the
loop was still blocked in select when the observation ends. -/
def runSteps (d : Docker) : List EventStep → Nat × Option EventsErr
  | [] => (0, none)
  | EventStep.ctxDone e :: _ => (0, some (EventsErr.ctxErr e))
  | EventStep.chClosed :: _ => (0, some EventsErr.eventsClosed)
  | EventStep.chEvent ev :: rest =>
    let r := runSteps d rest
    (if emitsSignal d ev then r.1 + 1 else r.1, r.2)

/-- Docker.events: register the listener (a failure returns the wrapped error at once,
with no signal sent), then run the select loop. -/
def eventsFn (d : Docker) (sub : Except String Unit) (steps : List EventStep) :
    Nat × Option EventsErr :=
  match sub with
  | Except.error msg => (0, some (EventsErr.listenFailed ("can\x27t add even listener: " ++ msg)))
  | Except.ok _ => runSteps d steps

/-- Input of one iteration of the restart loop of Docker.Events: the subscription
outcome and the arrivals observed during that iteration. -/
structure IterInput where
  sub : Except String Unit
  steps : List EventStep

/-- Visible action of one iteration of the restart loop of Docker.Events: either the
warn-log-and-sleep path taken before a restart, or closing the downstream sink. -/
inductive LoopAction where
  | warnSleep
  | closeSink
deriving DecidableEq

/-- Error returned by one iteration of the restart loop, when it returns at all. -/
def iterErr (d : Docker) (it : IterInput) : Option EventsErr :=
  (eventsFn d it.sub it.steps).2

/-- The goroutine of Docker.Events over a finite list of iteration inputs: each
iteration runs Docker.events; a cancellation-class error closes eventsCh and ends the
loop, any other error logs a warning, sleeps the fixed delay and restarts.  An iteration
that never returns ends the observation with no further action. -/
def eventsLoop (d : Docker) : List IterInput → List LoopAction
  | [] => []
  | it :: rest =>
    match iterErr d it with
    | none => []
    | some e =>
      if isCancellation e then [LoopAction.closeSink]
      else LoopAction.warnSleep :: eventsLoop d rest

/-! Concrete fixtures used to exercise the embedded operations. -/

/-- Provider with an empty exclusion list watching the bridge network. -/
def dBridge : Docker := { Excludes := [], Network := "bridge" }

/-- Regex engine stand-in that accepts every pattern. -/
def compileOk : String → Except String Unit := fun _ => Except.ok ()

/-- Regex engine stand-in that rejects the single pattern consisting of an opening
bracket, the way the Go engine does, and accepts everything else. -/
def compileBr : String → Except String Unit :=
  fun s => if s = "[" then Except.error "missing closing ]" else Except.ok ()

/-- Running container named foo at 10.0.0.5 on the bridge network, first private
port 9000, no labels. -/
def cfoo : APIContainers :=
  { ID := "id4"
    Names := ["/foo"]
    Status := "start"
    Created := 0
    Labels := []
    Networks := { Networks := [("bridge", { IPAddress := "10.0.0.5" })] }
    Ports := [{ PrivatePort := 9000 }] }

/-- The fixture cfoo with the three dpx labels set. -/
def cspecial : APIContainers :=
  { cfoo with Labels := [("dpx.server", "x.example.com"), ("dpx.route", "^/special/(.*)"),
                        ("dpx.dest", "/v2")] }

/-- The fixture cfoo with an uncompilable dpx.route label and a recognizable id. -/
def cbadroute : APIContainers :=
  { cfoo with ID := "cid1", Labels := [("dpx.route", "[")] }

/-- The fixture cfoo with an empty names list. -/
def cnonames : APIContainers := { cfoo with Names := [] }

/-- Snapshot the listing builds for cbadroute. -/
def cibadroute : containerInfo :=
  { ID := "cid1", Name := "foo", TS := 0, Labels := [("dpx.route", "[")],
    IP := "10.0.0.5", Port := 9000 }

/-- Container start event for the actor named foo. -/
def evStart : APIEvents :=
  { etype := "container", Status := "start", Actor := { Attributes := [("name", "/foo")] } }

/-- The fixture cfoo attached to a network other than the configured one. -/
def cOffNet : APIContainers :=
  { cfoo with Networks := { Networks := [("other", { IPAddress := "10.0.0.9" })] } }

/-- The fixture cfoo with an empty port list. -/
def cNoPorts : APIContainers := { cfoo with Ports := [] }

/-- The fixture cfoo with a status outside the up vocabulary. -/
def cExited : APIContainers := { cfoo with Status := "exited" }

/-- Snapshot the listing builds for cfoo. -/
def cifoo : containerInfo :=
  { ID := "id4", Name := "foo", TS := 0, Labels := [], IP := "10.0.0.5", Port := 9000 }

/-- Snapshot the listing builds for cspecial. -/
def cispecial : containerInfo :=
  { ID := "id4", Name := "foo", TS := 0,
    Labels := [("dpx.server", "x.example.com"), ("dpx.route", "^/special/(.*)"),
               ("dpx.dest", "/v2")],
    IP := "10.0.0.5", Port := 9000 }

/-- Provider excluding the container named foo on the bridge network. -/
def dExcl : Docker := { Excludes := ["foo"], Network := "bridge" }

/-- Watcher iteration whose event feed closes after one kept event. -/
def iterTransient : IterInput :=
  { sub := Except.ok (), steps := [EventStep.chEvent evStart, EventStep.chClosed] }

/-- Watcher iteration cancelled by the context. -/
def iterCancel : IterInput :=
  { sub := Except.ok (), steps := [EventStep.ctxDone CtxErr.canceled] }

/-! Helper lemmas about the embedded operations. -/

/-- The membership test of docker.go agrees with list membership. -/
theorem contains_iff (e : String) (s : List String) : contains e s = true ↔ e ∈ s := by
  induction s with
  | nil => simp [contains]
  | cons a rest ih =>
    by_cases h : a = e
    · subst h
      simp [contains]
    · simp [contains, h, ih, List.mem_cons]
      intro he
      exact absurd he.symm h

/-- A container whose status is outside the up vocabulary is discarded. -/
theorem processContainer_drop_status (d : Docker) (c : APIContainers)
    (h1 : c.Status ≠ "start") (h2 : c.Status ≠ "restart") :
    processContainer d c = some none := by
  have hc : contains c.Status upStatuses = false := by
    simp [contains, upStatuses, Ne.symm h1, Ne.symm h2]
  simp [processContainer, hc]

/-- A container whose de-prefixed first name is excluded is discarded. -/
theorem processContainer_drop_excluded (d : Docker) (c : APIContainers) (n : String)
    (ns : List String) (hn : c.Names = n :: ns) (hx : trimPrefixStr n "/" ∈ d.Excludes) :
    processContainer d c = some none := by
  have hc : contains (trimPrefixStr n "/") d.Excludes = true := (contains_iff _ _).mpr hx
  by_cases hs : contains c.Status upStatuses = false
  · simp [processContainer, hs]
  · simp [processContainer, hs, hn, hc]

/-- A container with no entry for the configured network is discarded. -/
theorem processContainer_drop_network (d : Docker) (c : APIContainers)
    (hn : c.Names ≠ []) (hnet : ∀ kv ∈ c.Networks.Networks, kv.1 ≠ d.Network) :
    processContainer d c = some none := by
  have hfind : c.Networks.Networks.find? (fun kv => kv.1 = d.Network) = none := by
    apply List.find?_eq_none.mpr
    intro kv hkv
    simp [hnet kv hkv]
  cases hN : c.Names with
  | nil => exact absurd hN hn
  | cons n ns =>
    by_cases hs : contains c.Status upStatuses = false
    · simp [processContainer, hs]
    · by_cases hx : contains (trimPrefixStr n "/") d.Excludes
      · simp [processContainer, hs, hN, hx]
      · simp [processContainer, hs, hN, hx, hfind]

/-- A container with an empty port list is discarded. -/
theorem processContainer_drop_noports (d : Docker) (c : APIContainers)
    (hn : c.Names ≠ []) (hp : c.Ports = []) :
    processContainer d c = some none := by
  cases hN : c.Names with
  | nil => exact absurd hN hn
  | cons n ns =>
    by_cases hs : contains c.Status upStatuses = false
    · simp [processContainer, hs]
    · by_cases hx : contains (trimPrefixStr n "/") d.Excludes
      · simp [processContainer, hs, hN, hx]
      · cases hf : c.Networks.Networks.find? (fun kv => kv.1 = d.Network) with
        | none => simp [processContainer, hs, hN, hx, hf]
        | some kv =>
          by_cases hip : kv.2.IPAddress = ""
          · simp [processContainer, hs, hN, hx, hf, hip]
          · simp [processContainer, hs, hN, hx, hf, hip, hp]

/-- A retained snapshot takes its port from the first reported port mapping. -/
theorem processContainer_port (d : Docker) (c : APIContainers) (ci : containerInfo)
    (h : processContainer d c = some (some ci)) :
    ∃ p ps, c.Ports = p :: ps ∧ ci.Port = p.PrivatePort := by
  by_cases hs : contains c.Status upStatuses = false
  · simp [processContainer, hs] at h
  · cases hN : c.Names with
    | nil => simp [processContainer, hs, hN] at h
    | cons n ns =>
      by_cases hx : contains (trimPrefixStr n "/") d.Excludes
      · simp [processContainer, hs, hN, hx] at h
      · cases hf : c.Networks.Networks.find? (fun kv => kv.1 = d.Network) with
        | none => simp [processContainer, hs, hN, hx, hf] at h
        | some kv =>
          by_cases hip : kv.2.IPAddress = ""
          · simp [processContainer, hs, hN, hx, hf, hip] at h
          · cases hP : c.Ports with
            | nil => simp [processContainer, hs, hN, hx, hf, hip, hP] at h
            | cons p ps =>
              simp [processContainer, hs, hN, hx, hf, hip, hP] at h
              refine ⟨p, ps, rfl, ?_⟩
              rw [← h]

/-- A container whose first name exists is never the source of the undefined branch. -/
theorem processContainer_ne_none (d : Docker) (c : APIContainers) (hn : c.Names ≠ []) :
    processContainer d c ≠ none := by
  cases hN : c.Names with
  | nil => exact absurd hN hn
  | cons n ns =>
    by_cases hs : contains c.Status upStatuses = false
    · simp [processContainer, hs]
    · by_cases hx : contains (trimPrefixStr n "/") d.Excludes
      · simp [processContainer, hs, hN, hx]
      · cases hf : c.Networks.Networks.find? (fun kv => kv.1 = d.Network) with
        | none => simp [processContainer, hs, hN, hx, hf]
        | some kv =>
          by_cases hip : kv.2.IPAddress = ""
          · simp [processContainer, hs, hN, hx, hf, hip]
          · cases hP : c.Ports with
            | nil => simp [processContainer, hs, hN, hx, hf, hip, hP]
            | cons p ps => simp [processContainer, hs, hN, hx, hf, hip, hP]

/-- A discarded container contributes nothing to the listing, wherever it sits in the
enumeration. -/
theorem listContainers_drop (d : Docker) (c : APIContainers)
    (h : processContainer d c = some none) (pre post : List APIContainers) :
    listContainers d (pre ++ c :: post) = listContainers d (pre ++ post) := by
  induction pre with
  | nil => simp [listContainers, h]
  | cons a pre ih =>
    cases hA : processContainer d a with
    | none => simp [listContainers, hA]
    | some o =>
      cases o with
      | none => simpa [listContainers, hA] using ih
      | some ci => simp [listContainers, hA, ih]

/-- The listing is defined whenever every enumerated container has at least one name. -/
theorem listContainers_ne_none (d : Docker) (cs : List APIContainers)
    (h : ∀ c ∈ cs, c.Names ≠ []) : listContainers d cs ≠ none := by
  induction cs with
  | nil => simp [listContainers]
  | cons a rest ih =>
    have ha : processContainer d a ≠ none := processContainer_ne_none d a (h a (by simp))
    have hr : listContainers d rest ≠ none := ih (fun c hc => h c (by simp [hc]))
    cases hA : processContainer d a with
    | none => exact absurd hA ha
    | some o =>
      cases o with
      | none => simpa [listContainers, hA] using hr
      | some ci =>
        cases hR : listContainers d rest with
        | none => exact absurd hR hr
        | some cis => simp [listContainers, hA, hR]

/-- A retained container has its snapshot in the listing result. -/
theorem listContainers_mem (d : Docker) :
    ∀ (cs : List APIContainers) (cis : List containerInfo) (c : APIContainers)
      (ci : containerInfo), listContainers d cs = some cis → c ∈ cs →
      processContainer d c = some (some ci) → ci ∈ cis := by
  intro cs
  induction cs with
  | nil =>
    intro cis c ci _ hc _
    simp at hc
  | cons a rest ih =>
    intro cis c ci h hc hp
    rcases List.mem_cons.mp hc with rfl | hmem
    · rw [listContainers, hp] at h
      cases hR : listContainers d rest with
      | none => rw [hR] at h; simp at h
      | some cis2 =>
        rw [hR] at h
        simp only [Option.some.injEq] at h
        rw [← h]
        exact List.mem_cons_self ci cis2
    · cases hA : processContainer d a with
      | none => rw [listContainers, hA] at h; simp at h
      | some o =>
        cases o with
        | none =>
          rw [listContainers, hA] at h
          exact ih cis c ci h hmem hp
        | some cia =>
          rw [listContainers, hA] at h
          cases hR : listContainers d rest with
          | none => rw [hR] at h; simp at h
          | some cis2 =>
            rw [hR] at h
            simp only [Option.some.injEq] at h
            rw [← h]
            exact List.mem_cons_of_mem cia (ih cis2 c ci hR hmem hp)

/-- A successful rule build contains one rule per retained snapshot. -/
theorem mapRules_mem (compile : String → Except String Unit) :
    ∀ (cis : List containerInfo) (us : List UrlMapper) (ci : containerInfo),
      mapRules compile cis = Except.ok us → ci ∈ cis →
      ∃ u ∈ us, ruleOf compile ci = Except.ok u := by
  intro cis
  induction cis with
  | nil =>
    intro us ci _ hc
    simp at hc
  | cons a rest ih =>
    intro us ci h hc
    cases hA : ruleOf compile a with
    | error e => rw [mapRules, hA] at h; simp at h
    | ok u =>
      rw [mapRules, hA] at h
      cases hR : mapRules compile rest with
      | error e => rw [hR] at h; simp at h
      | ok us2 =>
        rw [hR] at h
        simp only [Except.ok.injEq] at h
        rcases List.mem_cons.mp hc with rfl | hmem
        · exact ⟨u, by rw [← h]; exact List.mem_cons_self u us2, hA⟩
        · obtain ⟨u2, hu2, hru⟩ := ih us2 ci hR hmem
          exact ⟨u2, by rw [← h]; exact List.mem_cons_of_mem u hu2, hru⟩

/-- If some snapshot carries an uncompilable pattern, the rule build fails with the
wrapped compile error of such a snapshot. -/
theorem mapRules_err (compile : String → Except String Unit) :
    ∀ cis : List containerInfo,
      (∃ ci ∈ cis, ∃ e, compile (srcURLOf ci) = Except.error e) →
      ∃ ci ∈ cis, ∃ msg, compile (srcURLOf ci) = Except.error msg ∧
        mapRules compile cis =
          Except.error ("invalid src regex " ++ srcURLOf ci ++ ": " ++ msg) := by
  intro cis
  induction cis with
  | nil =>
    intro h
    simp at h
  | cons a rest ih =>
    intro h
    cases hA : compile (srcURLOf a) with
    | error e =>
      refine ⟨a, by simp, e, hA, ?_⟩
      rw [mapRules, ruleOf, hA]
    | ok u =>
      have hrest : ∃ ci ∈ rest, ∃ e, compile (srcURLOf ci) = Except.error e := by
        obtain ⟨ci, hci, e, he⟩ := h
        rcases List.mem_cons.mp hci with rfl | hmem
        · rw [hA] at he; exact absurd he (by simp)
        · exact ⟨ci, hmem, e, he⟩
      obtain ⟨ci, hci, msg, hmsg, hmr⟩ := ih hrest
      refine ⟨ci, List.mem_cons_of_mem a hci, msg, hmsg, ?_⟩
      rw [mapRules, ruleOf, hA, hmr]

/-- Unfolding of Docker.List on a successful enumeration whose filtering is defined. -/
theorem dockerList_of_listContainers (d : Docker) (compile : String → Except String Unit)
    (cs : List APIContainers) (cis : List containerInfo)
    (h : listContainers d cs = some cis) :
    dockerList d compile (Except.ok cs) = some (mapRules compile cis) := by
  simp [dockerList, listContainersOp, h]

/-- Inversion of a successful Docker.List call. -/
theorem dockerList_ok_elim (d : Docker) (compile : String → Except String Unit)
    (cs : List APIContainers) (rules : List UrlMapper)
    (h : dockerList d compile (Except.ok cs) = some (Except.ok rules)) :
    ∃ cis, listContainers d cs = some cis ∧ mapRules compile cis = Except.ok rules := by
  simp only [dockerList, listContainersOp] at h
  cases hL : listContainers d cs with
  | none => rw [hL] at h; simp at h
  | some cis =>
    rw [hL] at h
    simp at h
    exact ⟨cis, rfl, h⟩

/-- Dropping a discarded container, lifted to Docker.List. -/
theorem dockerList_drop (d : Docker) (compile : String → Except String Unit)
    (c : APIContainers) (h : processContainer d c = some none)
    (pre post : List APIContainers) :
    dockerList d compile (Except.ok (pre ++ c :: post)) =
      dockerList d compile (Except.ok (pre ++ post)) := by
  simp only [dockerList, listContainersOp]
  rw [listContainers_drop d c h pre post]

/-- The action trace of the restart loop is a run of restart delays, possibly ended by
a single sink closure. -/
theorem eventsLoop_shape (d : Docker) (iters : List IterInput) :
    ∃ k, eventsLoop d iters = List.replicate k LoopAction.warnSleep ∨
      eventsLoop d iters = List.replicate k LoopAction.warnSleep ++ [LoopAction.closeSink] := by
  induction iters with
  | nil => exact ⟨0, Or.inl rfl⟩
  | cons it rest ih =>
    cases hE : iterErr d it with
    | none => exact ⟨0, Or.inl (by simp [eventsLoop, hE])⟩
    | some e =>
      by_cases hc : isCancellation e = true
      · exact ⟨0, Or.inr (by simp [eventsLoop, hE, hc])⟩
      · obtain ⟨k, hk | hk⟩ := ih
        · exact ⟨k + 1, Or.inl (by simp [eventsLoop, hE, hc, hk, List.replicate_succ])⟩
        · exact ⟨k + 1, Or.inr (by simp [eventsLoop, hE, hc, hk, List.replicate_succ])⟩

/-- The restart loop closes the sink exactly when some iteration returns a
cancellation-class error after a run of iterations that all returned and failed with
non-cancellation errors. -/
theorem eventsLoop_close_iff (d : Docker) (iters : List IterInput) :
    LoopAction.closeSink ∈ eventsLoop d iters ↔
      ∃ pre it rest, iters = pre ++ it :: rest ∧
        (∀ it2 ∈ pre, ∃ e, iterErr d it2 = some e ∧ isCancellation e = false) ∧
        (∃ e, iterErr d it = some e ∧ isCancellation e = true) := by
  induction iters with
  | nil =>
    simp only [eventsLoop, List.not_mem_nil, false_iff]
    rintro ⟨pre, it, rest, habs, -, -⟩
    exact (List.cons_ne_nil it rest) (List.append_eq_nil.mp habs.symm).2
  | cons it rest ih =>
    cases hE : iterErr d it with
    | none =>
      simp only [eventsLoop, hE, List.not_mem_nil, false_iff]
      rintro ⟨pre, it2, rest2, heq, hall, e, he, -⟩
      cases pre with
      | nil =>
        simp only [List.nil_append, List.cons.injEq] at heq
        rw [← heq.1, hE] at he
        cases he
      | cons p pre2 =>
        simp only [List.cons_append, List.cons.injEq] at heq
        obtain ⟨e2, he2, -⟩ := hall p (List.mem_cons_self p pre2)
        rw [← heq.1, hE] at he2
        cases he2
    | some e =>
      by_cases hc : isCancellation e = true
      · constructor
        · intro _
          exact ⟨[], it, rest, rfl, by simp, e, hE, hc⟩
        · intro _
          simp [eventsLoop, hE, hc]
      · have hloop : eventsLoop d (it :: rest) =
            LoopAction.warnSleep :: eventsLoop d rest := by
          simp [eventsLoop, hE, hc]
        rw [hloop]
        constructor
        · intro hm
          rcases List.mem_cons.mp hm with habs | hm2
          · cases habs
          · obtain ⟨pre, it2, rest2, heq, hall, hcanc⟩ := ih.mp hm2
            refine ⟨it :: pre, it2, rest2, by rw [heq]; simp, ?_, hcanc⟩
            intro it3 hit3
            rcases List.mem_cons.mp hit3 with rfl | hin
            · exact ⟨e, hE, Bool.not_eq_true _ ▸ (by simpa using hc)⟩
            · exact hall it3 hin
        · rintro ⟨pre, it2, rest2, heq, hall, e2, he2, hc2⟩
          cases pre with
          | nil =>
            simp only [List.nil_append, List.cons.injEq] at heq
            rw [← heq.1, hE] at he2
            simp only [Option.some.injEq] at he2
            rw [← he2] at hc2
            exact absurd hc2 hc
          | cons p pre2 =>
            simp only [List.cons_append, List.cons.injEq] at heq
            refine List.mem_cons_of_mem _ (ih.mpr ⟨pre2, it2, rest2, heq.2, ?_, e2, he2, hc2⟩)
            intro it3 hit3
            exact hall it3 (List.mem_cons_of_mem p hit3)

/-- The select loop returns a cancellation-class error exactly when the first
non-event arrival it sees is the context becoming done. -/
theorem runSteps_cancel_iff (d : Docker) (steps : List EventStep) :
    (∃ e, (runSteps d steps).2 = some e ∧ isCancellation e = true) ↔
      ∃ pre ce rest, steps = pre ++ EventStep.ctxDone ce :: rest ∧
        ∀ s ∈ pre, ∃ ev, s = EventStep.chEvent ev := by
  induction steps with
  | nil =>
    constructor
    · rintro ⟨e, he, -⟩
      simp [runSteps] at he
    · rintro ⟨pre, ce, rest, habs, -⟩
      exact absurd ((List.append_eq_nil.mp habs.symm).2) (List.cons_ne_nil _ rest)
  | cons s rest ih =>
    cases s with
    | ctxDone ce =>
      constructor
      · intro _
        exact ⟨[], ce, rest, rfl, by simp⟩
      · intro _
        exact ⟨EventsErr.ctxErr ce, rfl, rfl⟩
    | chClosed =>
      constructor
      · rintro ⟨e, he, hc⟩
        simp only [runSteps, Option.some.injEq] at he
        rw [← he] at hc
        cases hc
      · rintro ⟨pre, ce, rest2, heq, hall⟩
        cases pre with
        | nil => cases heq
        | cons p pre2 =>
          simp only [List.cons_append, List.cons.injEq] at heq
          obtain ⟨ev, hev⟩ := hall p (List.mem_cons_self p pre2)
          rw [hev] at heq
          cases heq.1
    | chEvent ev =>
      have hstep : (runSteps d (EventStep.chEvent ev :: rest)).2 = (runSteps d rest).2 := rfl
      rw [hstep]
      rw [ih]
      constructor
      · rintro ⟨pre, ce, rest2, heq, hall⟩
        refine ⟨EventStep.chEvent ev :: pre, ce, rest2, by rw [heq]; simp, ?_⟩
        intro s hs
        rcases List.mem_cons.mp hs with rfl | hin
        · exact ⟨ev, rfl⟩
        · exact hall s hin
      · rintro ⟨pre, ce, rest2, heq, hall⟩
        cases pre with
        | nil => cases heq
        | cons p pre2 =>
          simp only [List.cons_append, List.cons.injEq] at heq
          exact ⟨pre2, ce, rest2, heq.2, fun s hs => hall s (List.mem_cons_of_mem p hs)⟩

/-- Docker.events returns a cancellation-class error exactly when the subscription
succeeded and the first non-event arrival is the context becoming done. -/
theorem eventsFn_cancel_iff (d : Docker) (sub : Except String Unit)
    (steps : List EventStep) :
    (∃ e, (eventsFn d sub steps).2 = some e ∧ isCancellation e = true) ↔
      (sub = Except.ok () ∧ ∃ pre ce rest, steps = pre ++ EventStep.ctxDone ce :: rest ∧
        ∀ s ∈ pre, ∃ ev, s = EventStep.chEvent ev) := by
  cases sub with
  | error msg =>
    simp only [eventsFn, Option.some.injEq, iff_false]
    constructor
    · rintro ⟨e, he, hc⟩
      rw [← he] at hc
      cases hc
    · rintro ⟨habs, -⟩
      cases habs
  | ok u =>
    cases u
    simp only [eventsFn, true_and]
    exact runSteps_cancel_iff d steps

/-- The per-event filter of Docker.events, characterized by the explicit vocabularies
and the exclusion set. -/
theorem emitsSignal_iff (d : Docker) (ev : APIEvents) :
    emitsSignal d ev = true ↔
      (ev.etype = "container" ∧
        (ev.Status = "start" ∨ ev.Status = "restart" ∨ ev.Status = "die" ∨
         ev.Status = "destroy" ∨ ev.Status = "stop" ∨ ev.Status = "pause") ∧
        trimPrefixStr ((mapGet ev.Actor.Attributes "name").getD "") "/" ∉ d.Excludes) := by
  by_cases h1 : ev.etype = "container"
  · by_cases h2 : contains ev.Status upStatuses = false ∧
        contains ev.Status downStatuses = false
    · have hev : emitsSignal d ev = false := by simp [emitsSignal, h1, h2]
      rw [hev]
      simp only [Bool.false_eq_true, false_iff]
      rintro ⟨-, hst, -⟩
      have hup : contains ev.Status upStatuses = true ∨
          contains ev.Status downStatuses = true := by
        rcases hst with h | h | h | h | h | h
        · exact Or.inl ((contains_iff _ _).mpr (by simp [upStatuses, h]))
        · exact Or.inl ((contains_iff _ _).mpr (by simp [upStatuses, h]))
        · exact Or.inr ((contains_iff _ _).mpr (by simp [downStatuses, h]))
        · exact Or.inr ((contains_iff _ _).mpr (by simp [downStatuses, h]))
        · exact Or.inr ((contains_iff _ _).mpr (by simp [downStatuses, h]))
        · exact Or.inr ((contains_iff _ _).mpr (by simp [downStatuses, h]))
      rcases hup with h | h
      · rw [h2.1] at h
        cases h
      · rw [h2.2] at h
        cases h
    · by_cases h3 : contains
          (trimPrefixStr ((mapGet ev.Actor.Attributes "name").getD "") "/") d.Excludes = true
      · have hev : emitsSignal d ev = false := by simp [emitsSignal, h1, h2, h3]
        rw [hev]
        simp only [Bool.false_eq_true, false_iff]
        rintro ⟨-, -, hex⟩
        exact hex ((contains_iff _ _).mp h3)
      · have hev : emitsSignal d ev = true := by simp [emitsSignal, h1, h2, h3]
        rw [hev]
        simp only [true_iff]
        refine ⟨h1, ?_, fun hmem => h3 ((contains_iff _ _).mpr hmem)⟩
        have hvocab : contains ev.Status upStatuses = true ∨
            contains ev.Status downStatuses = true := by
          rcases Bool.eq_false_or_eq_true (contains ev.Status upStatuses) with hu | hu
          · exact Or.inl hu
          · rcases Bool.eq_false_or_eq_true (contains ev.Status downStatuses) with hd | hd
            · exact Or.inr hd
            · exact absurd ⟨hu, hd⟩ h2
        rcases hvocab with h | h
        · have := (contains_iff _ _).mp h
          simp only [upStatuses, List.mem_cons, List.not_mem_nil, or_false] at this
          tauto
        · have := (contains_iff _ _).mp h
          simp only [downStatuses, List.mem_cons, List.not_mem_nil, or_false] at this
          tauto
  · have hev : emitsSignal d ev = false := by simp [emitsSignal, h1]
    rw [hev]
    simp only [Bool.false_eq_true, false_iff]
    rintro ⟨habs, -⟩
    exact h1 habs

/-- The restart loop closes the sink at most once. -/
theorem eventsLoop_close_count (d : Docker) (iters : List IterInput) :
    (eventsLoop d iters).count LoopAction.closeSink ≤ 1 := by
  obtain ⟨k, hk | hk⟩ := eventsLoop_shape d iters <;> rw [hk]
  · simp [List.count_replicate]
  · simp [List.count_append, List.count_replicate, List.count_cons]

/-! Claim theorems. -/

/-- Claim C1, counterexample to the claim as stated: for a retained container named
foo with id cid1 whose dpx.route label does not compile, List returns the wrapped
compile error and zero rules, but the error text contains neither the container name
nor its id, so the error does not identify the offending container. -/
theorem claim_C1_counterexample :
    processContainer dBridge cbadroute = some (some cibadroute) ∧
    compileBr (srcURLOf cibadroute) = Except.error "missing closing ]" ∧
    dockerList dBridge compileBr (Except.ok [cbadroute]) =
      some (Except.error "invalid src regex [: missing closing ]") ∧
    ¬ ("foo".data <:+: ("invalid src regex [: missing closing ]").data) ∧
    ¬ ("cid1".data <:+: ("invalid src regex [: missing closing ]").data) :=
  ⟨rfl, rfl, rfl, by decide, by decide⟩

/-- Claim C1 as amended: if the effective source pattern of some retained container
fails to compile, then List returns an error naming an offending pattern together with
the compile failure message, and returns zero rules; the offending container itself is
not identified in the error. -/
theorem claim_C1 (d : Docker) (compile : String → Except String Unit)
    (cs : List APIContainers) (cis : List containerInfo)
    (hL : listContainers d cs = some cis)
    (hbad : ∃ ci ∈ cis, ∃ e, compile (srcURLOf ci) = Except.error e) :
    ∃ ci ∈ cis, ∃ msg, compile (srcURLOf ci) = Except.error msg ∧
      dockerList d compile (Except.ok cs) =
        some (Except.error ("invalid src regex " ++ srcURLOf ci ++ ": " ++ msg)) ∧
      ∀ rules, dockerList d compile (Except.ok cs) ≠ some (Except.ok rules) := by
  obtain ⟨ci, hci, msg, hmsg, hmr⟩ := mapRules_err compile cis hbad
  refine ⟨ci, hci, msg, hmsg, ?_, ?_⟩
  · rw [dockerList_of_listContainers d compile cs cis hL, hmr]
  · intro rules h
    rw [dockerList_of_listContainers d compile cs cis hL, hmr] at h
    simp at h

/-- Witness for claim C1 at the concrete counterexample input. -/
theorem claim_C1_witness :
    ∃ ci ∈ [cibadroute], ∃ msg, compileBr (srcURLOf ci) = Except.error msg ∧
      dockerList dBridge compileBr (Except.ok [cbadroute]) =
        some (Except.error ("invalid src regex " ++ srcURLOf ci ++ ": " ++ msg)) ∧
      ∀ rules, dockerList dBridge compileBr (Except.ok [cbadroute]) ≠
        some (Except.ok rules) :=
  claim_C1 dBridge compileBr [cbadroute] [cibadroute] rfl
    ⟨cibadroute, by simp, "missing closing ]", rfl⟩

/-- Claim C2: the sink of the event watcher closes at most once; it closes exactly when
some iteration of the restart loop returns a cancellation-class error, every earlier
iteration having returned a non-cancellation error; a non-cancellation error is always
followed by one delay action and a restart, never a closure; and an iteration returns a
cancellation-class error exactly when the subscription succeeded and the context became
done. -/
theorem claim_C2 (d : Docker) (iters : List IterInput) :
    ((eventsLoop d iters).count LoopAction.closeSink ≤ 1) ∧
    (LoopAction.closeSink ∈ eventsLoop d iters ↔
      ∃ pre it rest, iters = pre ++ it :: rest ∧
        (∀ it2 ∈ pre, ∃ e, iterErr d it2 = some e ∧ isCancellation e = false) ∧
        (∃ e, iterErr d it = some e ∧ isCancellation e = true)) ∧
    (∀ it rest e, iterErr d it = some e → isCancellation e = false →
      eventsLoop d (it :: rest) = LoopAction.warnSleep :: eventsLoop d rest) ∧
    (∀ sub steps,
      (∃ e, (eventsFn d sub steps).2 = some e ∧ isCancellation e = true) ↔
        (sub = Except.ok () ∧
          ∃ pre ce rest, steps = pre ++ EventStep.ctxDone ce :: rest ∧
            ∀ s ∈ pre, ∃ ev, s = EventStep.chEvent ev)) := by
  refine ⟨eventsLoop_close_count d iters, eventsLoop_close_iff d iters, ?_,
    eventsFn_cancel_iff d⟩
  intro it rest e hE hc
  simp [eventsLoop, hE, hc]

/-- Witness for claim C2: one transient iteration then a cancelled one close the sink
exactly once, after a single delay action. -/
theorem claim_C2_witness :
    LoopAction.closeSink ∈ eventsLoop dBridge [iterTransient, iterCancel] ∧
    (eventsLoop dBridge [iterTransient, iterCancel]).count LoopAction.closeSink ≤ 1 ∧
    eventsLoop dBridge (iterTransient :: [iterCancel]) =
      LoopAction.warnSleep :: eventsLoop dBridge [iterCancel] := by
  refine ⟨?_, (claim_C2 dBridge [iterTransient, iterCancel]).1, ?_⟩
  · refine (claim_C2 dBridge [iterTransient, iterCancel]).2.1.mpr
      ⟨[iterTransient], iterCancel, [], rfl, ?_, EventsErr.ctxErr CtxErr.canceled, rfl, rfl⟩
    intro it2 hit2
    have h2 : it2 = iterTransient := by simpa using hit2
    rw [h2]
    exact ⟨EventsErr.eventsClosed, rfl, rfl⟩
  · exact (claim_C2 dBridge [iterTransient, iterCancel]).2.2.1 iterTransient [iterCancel]
      EventsErr.eventsClosed rfl rfl

/-- Claim C5: inside the select loop, a received event produces exactly one signal when
its resource type is container, its status is in the up or down vocabulary and its
de-prefixed actor name is not excluded, and zero signals otherwise; it never changes
the returned error. -/
theorem claim_C5 (d : Docker) (ev : APIEvents) (rest : List EventStep) :
    (runSteps d (EventStep.chEvent ev :: rest)).1 =
      (if (ev.etype = "container" ∧
            (ev.Status = "start" ∨ ev.Status = "restart" ∨ ev.Status = "die" ∨
             ev.Status = "destroy" ∨ ev.Status = "stop" ∨ ev.Status = "pause") ∧
            trimPrefixStr ((mapGet ev.Actor.Attributes "name").getD "") "/" ∉ d.Excludes)
        then 1 else 0) + (runSteps d rest).1 ∧
    (runSteps d (EventStep.chEvent ev :: rest)).2 = (runSteps d rest).2 := by
  constructor
  · by_cases hq : (ev.etype = "container" ∧
        (ev.Status = "start" ∨ ev.Status = "restart" ∨ ev.Status = "die" ∨
         ev.Status = "destroy" ∨ ev.Status = "stop" ∨ ev.Status = "pause") ∧
        trimPrefixStr ((mapGet ev.Actor.Attributes "name").getD "") "/" ∉ d.Excludes)
    · rw [if_pos hq]
      have hb : emitsSignal d ev = true := (emitsSignal_iff d ev).mpr hq
      simp [runSteps, hb]
      omega
    · rw [if_neg hq]
      have hb : emitsSignal d ev = false := by
        rcases Bool.eq_false_or_eq_true (emitsSignal d ev) with h | h
        · exact absurd ((emitsSignal_iff d ev).mp h) hq
        · exact h
      simp [runSteps, hb]
  · rfl

/-- Witness for claim C5: a container start event for a non-excluded name yields one
signal. -/
theorem claim_C5_witness : (runSteps dBridge [EventStep.chEvent evStart]).1 = 1 := by
  have h := (claim_C5 dBridge evStart []).1
  rw [h]
  decide

/-- Claim C3: a retained container named foo at 10.0.0.5 port 9000 whose labels set
dpx.server, dpx.route and dpx.dest to the stated values contributes to any successful
List result the rule with that exact server match, the verbatim label pattern, and the
destination with the dpx.dest path suffix and no capture placeholder. -/
theorem claim_C3 (d : Docker) (compile : String → Except String Unit)
    (pre post : List APIContainers) (c : APIContainers) (ci : containerInfo)
    (rules : List UrlMapper)
    (hret : processContainer d c = some (some ci))
    (hname : ci.Name = "foo") (hip : ci.IP = "10.0.0.5") (hport : ci.Port = 9000)
    (hroute : mapGet ci.Labels "dpx.route" = some "^/special/(.*)")
    (hdest : mapGet ci.Labels "dpx.dest" = some "/v2")
    (hserver : mapGet ci.Labels "dpx.server" = some "x.example.com")
    (hres : dockerList d compile (Except.ok (pre ++ c :: post)) = some (Except.ok rules)) :
    ({ Server := "x.example.com", SrcMatch := "^/special/(.*)",
       Dst := "http://10.0.0.5:9000/v2" } : UrlMapper) ∈ rules := by
  obtain ⟨cis, hL, hm⟩ := dockerList_ok_elim d compile _ rules hres
  have hmem : ci ∈ cis := listContainers_mem d _ cis c ci hL (by simp) hret
  obtain ⟨u, hu, hru⟩ := mapRules_mem compile cis rules ci hm hmem
  have hsrc : srcURLOf ci = "^/special/(.*)" := by simp [srcURLOf, hroute]
  have hdst : destURLOf ci = "http://10.0.0.5:9000/v2" := by
    simp only [destURLOf, hdest, hip, hport]
    rfl
  have hsrv : serverOf ci = "x.example.com" := by simp [serverOf, hserver]
  have hexp : u = ({ Server := "x.example.com", SrcMatch := "^/special/(.*)", Dst := "http://10.0.0.5:9000/v2" } : UrlMapper) := by
    cases hc : compile (srcURLOf ci) with
    | error e =>
      unfold ruleOf at hru
      rw [hc] at hru
      simp at hru
    | ok v =>
      unfold ruleOf at hru
      rw [hc] at hru
      simp only [Except.ok.injEq] at hru
      rw [← hru, hsrv, hsrc, hdst]
  rw [← hexp]
  exact hu

/-- Witness for claim C3 at the concrete fixture cspecial. -/
theorem claim_C3_witness :
    ({ Server := "x.example.com", SrcMatch := "^/special/(.*)",
       Dst := "http://10.0.0.5:9000/v2" } : UrlMapper) ∈
      [({ Server := "x.example.com", SrcMatch := "^/special/(.*)",
          Dst := "http://10.0.0.5:9000/v2" } : UrlMapper)] :=
  claim_C3 dBridge compileOk [] [] cspecial cispecial _ rfl rfl rfl rfl rfl rfl rfl rfl

/-- Claim C4: a retained container named foo at 10.0.0.5 port 9000 with none of the dpx
labels contributes to any successful List result the default rule: server star, source
pattern anchored on the name, destination with the positional capture placeholder. -/
theorem claim_C4 (d : Docker) (compile : String → Except String Unit)
    (pre post : List APIContainers) (c : APIContainers) (ci : containerInfo)
    (rules : List UrlMapper)
    (hret : processContainer d c = some (some ci))
    (hname : ci.Name = "foo") (hip : ci.IP = "10.0.0.5") (hport : ci.Port = 9000)
    (hroute : mapGet ci.Labels "dpx.route" = none)
    (hdest : mapGet ci.Labels "dpx.dest" = none)
    (hserver : mapGet ci.Labels "dpx.server" = none)
    (hres : dockerList d compile (Except.ok (pre ++ c :: post)) = some (Except.ok rules)) :
    ({ Server := "*", SrcMatch := "^/api/foo/(.*)",
       Dst := "http://10.0.0.5:9000/$1" } : UrlMapper) ∈ rules := by
  obtain ⟨cis, hL, hm⟩ := dockerList_ok_elim d compile _ rules hres
  have hmem : ci ∈ cis := listContainers_mem d _ cis c ci hL (by simp) hret
  obtain ⟨u, hu, hru⟩ := mapRules_mem compile cis rules ci hm hmem
  have hsrc : srcURLOf ci = "^/api/foo/(.*)" := by
    simp only [srcURLOf, hroute, hname]
    rfl
  have hdst : destURLOf ci = "http://10.0.0.5:9000/$1" := by
    simp only [destURLOf, hdest, hip, hport]
    rfl
  have hsrv : serverOf ci = "*" := by simp [serverOf, hserver]
  have hexp : u = ({ Server := "*", SrcMatch := "^/api/foo/(.*)", Dst := "http://10.0.0.5:9000/$1" } : UrlMapper) := by
    cases hc : compile (srcURLOf ci) with
    | error e =>
      unfold ruleOf at hru
      rw [hc] at hru
      simp at hru
    | ok v =>
      unfold ruleOf at hru
      rw [hc] at hru
      simp only [Except.ok.injEq] at hru
      rw [← hru, hsrv, hsrc, hdst]
  rw [← hexp]
  exact hu

/-- Witness for claim C4 at the concrete fixture cfoo. -/
theorem claim_C4_witness :
    ({ Server := "*", SrcMatch := "^/api/foo/(.*)",
       Dst := "http://10.0.0.5:9000/$1" } : UrlMapper) ∈
      [({ Server := "*", SrcMatch := "^/api/foo/(.*)",
          Dst := "http://10.0.0.5:9000/$1" } : UrlMapper)] :=
  claim_C4 dBridge compileOk [] [] cfoo cifoo _ rfl rfl rfl rfl rfl rfl rfl rfl

/-- Claim C6: a container with no address entry for the configured network contributes
nothing to the List result, wherever it sits in the enumeration. -/
theorem claim_C6 (d : Docker) (compile : String → Except String Unit)
    (pre post : List APIContainers) (c : APIContainers)
    (hn : c.Names ≠ [])
    (hnet : ∀ kv ∈ c.Networks.Networks, kv.1 ≠ d.Network) :
    dockerList d compile (Except.ok (pre ++ c :: post)) =
      dockerList d compile (Except.ok (pre ++ post)) :=
  dockerList_drop d compile c (processContainer_drop_network d c hn hnet) pre post

/-- Witness for claim C6 at the concrete fixture cOffNet. -/
theorem claim_C6_witness :
    dockerList dBridge compileOk (Except.ok [cOffNet]) =
      dockerList dBridge compileOk (Except.ok []) :=
  claim_C6 dBridge compileOk [] [] cOffNet (by decide) (by decide)

/-- Claim C7: a container reporting zero port mappings contributes nothing to the List
result, and a retained snapshot takes its port from the first reported port mapping. -/
theorem claim_C7 (d : Docker) (compile : String → Except String Unit)
    (pre post : List APIContainers) (c : APIContainers) (ci : containerInfo) :
    (c.Names ≠ [] → c.Ports = [] →
      dockerList d compile (Except.ok (pre ++ c :: post)) =
        dockerList d compile (Except.ok (pre ++ post))) ∧
    (processContainer d c = some (some ci) →
      ∃ p ps, c.Ports = p :: ps ∧ ci.Port = p.PrivatePort) := by
  constructor
  · intro hn hp
    exact dockerList_drop d compile c (processContainer_drop_noports d c hn hp) pre post
  · exact processContainer_port d c ci

/-- Witness for claim C7 at the concrete fixtures cNoPorts and cfoo. -/
theorem claim_C7_witness :
    (dockerList dBridge compileOk (Except.ok [cNoPorts]) =
      dockerList dBridge compileOk (Except.ok [])) ∧
    (∃ p ps, cfoo.Ports = p :: ps ∧ cifoo.Port = p.PrivatePort) :=
  ⟨(claim_C7 dBridge compileOk [] [] cNoPorts cifoo).1 (by decide) (by decide),
   (claim_C7 dBridge compileOk [] [] cfoo cifoo).2 (by decide)⟩

/-- Claim C8: a container whose status is outside the up vocabulary contributes nothing
to the List result, even though the enumeration was already runtime-filtered. -/
theorem claim_C8 (d : Docker) (compile : String → Except String Unit)
    (pre post : List APIContainers) (c : APIContainers)
    (h1 : c.Status ≠ "start") (h2 : c.Status ≠ "restart") :
    dockerList d compile (Except.ok (pre ++ c :: post)) =
      dockerList d compile (Except.ok (pre ++ post)) :=
  dockerList_drop d compile c (processContainer_drop_status d c h1 h2) pre post

/-- Witness for claim C8 at the concrete fixture cExited. -/
theorem claim_C8_witness :
    dockerList dBridge compileOk (Except.ok [cExited]) =
      dockerList dBridge compileOk (Except.ok []) :=
  claim_C8 dBridge compileOk [] [] cExited (by decide) (by decide)

/-- Claim C9: a container whose de-prefixed first name is in the exclusion set
contributes nothing to the List result, whatever its status, networks, ports or
labels. -/
theorem claim_C9 (d : Docker) (compile : String → Except String Unit)
    (pre post : List APIContainers) (c : APIContainers) (n : String) (ns : List String)
    (hn : c.Names = n :: ns) (hx : trimPrefixStr n "/" ∈ d.Excludes) :
    dockerList d compile (Except.ok (pre ++ c :: post)) =
      dockerList d compile (Except.ok (pre ++ post)) :=
  dockerList_drop d compile c (processContainer_drop_excluded d c n ns hn hx) pre post

/-- Witness for claim C9 at the concrete fixture cfoo under the excluding provider. -/
theorem claim_C9_witness :
    dockerList dExcl compileOk (Except.ok [cfoo]) =
      dockerList dExcl compileOk (Except.ok []) :=
  claim_C9 dExcl compileOk [] [] cfoo "/foo" [] rfl (by decide)

/-- Claim C10: the listing is defined whenever every enumerated container has a
non-empty names list, and the undefined branch is reachable: a running container with
an empty names list makes List undefined, so non-empty names is an unstated
precondition of List. -/
theorem claim_C10 :
    (∀ (d : Docker) (compile : String → Except String Unit) (cs : List APIContainers),
      (∀ c ∈ cs, c.Names ≠ []) → dockerList d compile (Except.ok cs) ≠ none) ∧
    dockerList dBridge compileOk (Except.ok [cnonames]) = none := by
  constructor
  · intro d compile cs h
    simp only [dockerList, listContainersOp]
    cases hL : listContainers d cs with
    | none => exact absurd hL (listContainers_ne_none d cs h)
    | some cis => simp
  · rfl

/-- Witness for claim C10 at the concrete fixture cfoo. -/
theorem claim_C10_witness : dockerList dBridge compileOk (Except.ok [cfoo]) ≠ none :=
  claim_C10.1 dBridge compileOk [cfoo] (by decide)

end Reproxy
